import Mathlib

/-!
Verification of the `ripped` CLI orchestration core (argument validation,
format-string planning, media conversion, bulk sweep, download pipeline)
against its natural-language specification.

The Python sources are shallowly embedded: pure functions become Lean
functions; filesystem state is an explicit `FS` value threaded through the
operations; the external ffmpeg / yt-dlp processes are modelled by explicit
outcome records passed as arguments; Python exceptions become explicit
result constructors.  Python strings are modelled by `String` with ASCII
semantics (all strings appearing in the program are ASCII).
-/

/-! ### String helpers (kernel-reducible models of the Python string ops) -/

/-- Model of Python `str.lower()` (ASCII range, which covers every string the
program manipulates). -/
def strLower (s : String) : String := ⟨s.data.map Char.toLower⟩

/-- Model of Python `str.startswith(pre)`. -/
def strStartsWith (s pre : String) : Bool := pre.data.isPrefixOf s.data

/-- Model of Python `str.strip()` (whitespace stripping, as performed by
`int(...)` on its argument). -/
def strTrim (s : String) : String :=
  ⟨((s.data.dropWhile Char.isWhitespace).reverse.dropWhile Char.isWhitespace).reverse⟩

/-! ### Decimal rendering: model of Python `str(n)` for a natural number.

Structural recursion on a fuel argument so that the kernel can evaluate it;
the fuel `n + 1` always suffices since the recursion divides by 10. -/

def natDecCore : Nat → Nat → List Char
  | 0, _ => []
  | fuel + 1, n =>
    if n < 10 then [Nat.digitChar n]
    else natDecCore fuel (n / 10) ++ [Nat.digitChar (n % 10)]

/-- Model of Python `str(n)` for `n : Nat`: standard decimal rendering. -/
def natDec (n : Nat) : String := ⟨natDecCore (n + 1) n⟩

/-- Model of Python `str(q)` for an `int` value. -/
def intDec (q : Int) : String :=
  if q < 0 then "-" ++ natDec (-q).toNat else natDec q.toNat

/-- Decoder used to prove that decimal rendering is injective. -/
def decodeDec (l : List Char) : Nat :=
  l.foldl (fun acc c => acc * 10 + (c.toNat - 48)) 0

/-! ### Paths and filesystem model.

A `pathlib.Path` value (already `expanduser().resolve()`-normalized, which the
sources apply on entry via `_normalize_path`) is modelled as the list of its
parent directory components plus the `stem`/`suffix` split of its final
component.  The filesystem is a list of (file path, size) entries plus a list
of directories (each given by its full component list). -/

structure MPath where
  dirs : List String
  stem : String
  ext : String
deriving DecidableEq, Repr

/-- Full component list of a path, as compared by the OS. -/
def MPath.components (p : MPath) : List String := p.dirs ++ [p.stem ++ p.ext]

structure FS where
  files : List (MPath × Nat)
  fsdirs : List (List String)
deriving DecidableEq, Repr

/-- Boolean membership via decidable equality (kernel-reducible). -/
def memB {α : Type} [DecidableEq α] (a : α) (l : List α) : Bool := decide (a ∈ l)

def FS.filePaths (fs : FS) : List MPath := fs.files.map Prod.fst

def FS.isFile (fs : FS) (p : MPath) : Bool := memB p fs.filePaths

def FS.isDir (fs : FS) (p : MPath) : Bool := memB p.components fs.fsdirs

/-- Model of `Path.exists()`: true for existing files and directories. -/
def pathExists (fs : FS) (p : MPath) : Bool := fs.isFile p || fs.isDir p

/-- Model of `Path.stat().st_size` for an existing file (0 when absent). -/
def FS.size (fs : FS) (p : MPath) : Nat :=
  ((fs.files.find? (fun e => e.1 == p)).map Prod.snd).getD 0

/-- Writing a file (ffmpeg is invoked with `-y`, so an existing file at the
same path would be replaced). -/
def FS.setFile (fs : FS) (p : MPath) (sz : Nat) : FS :=
  { fs with files := (p, sz) :: fs.files.filter (fun e => !(e.1 == p)) }

/-- Model of `Path.unlink()`. -/
def FS.removeFile (fs : FS) (p : MPath) : FS :=
  { fs with files := fs.files.filter (fun e => !(e.1 == p)) }

/-! ### Option Validator (src/ripped/cli/parser.py) -/

/-- Model of Python `int(raw)` parsing for base-10 integer literals: optional
surrounding whitespace, optional sign, digits with single underscores allowed
only between digits.  `none` models the `ValueError` raise. -/
def pyDigitsCore : List Char → Bool → Nat → Option Nat
  | [], wasU, acc => if wasU then none else some acc
  | c :: rest, wasU, acc =>
    if c.isDigit then pyDigitsCore rest false (acc * 10 + (c.toNat - 48))
    else if c == '_' then (if wasU then none else pyDigitsCore rest true acc)
    else none

def pyDigits (cs : List Char) : Option Nat :=
  match cs with
  | c :: _ => if c.isDigit then pyDigitsCore cs false 0 else none
  | [] => none

def pyIntParse (s : String) : Option Int :=
  match (strTrim s).data with
  | '+' :: rest => (pyDigits rest).map Int.ofNat
  | '-' :: rest => (pyDigits rest).map (fun n => -(n : Int))
  | cs => (pyDigits cs).map Int.ofNat

/-- Embedding of `_validate_mode` (parser.py line 14). -/
def _validate_mode (raw_mode : String) : Except String String :=
  let mode := strLower raw_mode
  if mode = "audio" ∨ mode = "video" ∨ mode = "convert" then .ok mode
  else .error "Mode must be \"audio\", \"video\", or \"convert\"."

/-- Embedding of `_validate_quality` (parser.py line 21). -/
def _validate_quality (raw_quality : String) : Except String (Option Int) :=
  if strLower raw_quality = "max" then .ok none
  else
    match pyIntParse raw_quality with
    | none => .error "Quality must be \"max\" or a positive integer."
    | some quality_int =>
      if quality_int ≤ 0 then .error "Quality must be a positive integer."
      else .ok (some quality_int)

/-- Embedding of `_validate_url` (parser.py line 33). -/
def _validate_url (url : String) : Except String String :=
  if strStartsWith url "http" then .ok url
  else .error "URL must start with http or https."

structure ParsedArgs where
  mode : String
  quality : Option Int
  url : Option String
  path : Option String
deriving DecidableEq, Repr

/-- Embedding of `parse_args` (parser.py line 39).  `resolve` models
`str(Path(p).expanduser().resolve())` and `existsR` models the existence test
on that resolved path; both are environment parameters. -/
def parse_args (resolve : String → String) (existsR : String → Bool)
    (argv : List String) : Except String ParsedArgs :=
  match argv with
  | [] => .error "Usage: ripped <mode> <quality> <url> OR ripped convert <path>"
  | a0 :: rest =>
    match _validate_mode a0 with
    | .error e => .error e
    | .ok mode =>
      if mode = "convert" then
        match rest with
        | [path] =>
          if existsR path then
            .ok ⟨mode, none, none, some (resolve path)⟩
          else .error "Provided path does not exist."
        | _ => .error "Usage: ripped convert <path>"
      else
        match rest with
        | [rawq, rawu] =>
          match _validate_quality rawq with
          | .error e => .error e
          | .ok quality =>
            match _validate_url rawu with
            | .error e => .error e
            | .ok url => .ok ⟨mode, quality, some url, none⟩
        | _ => .error "Usage: ripped <mode> <quality> <url>"

/-! ### Format Planner (src/ripped/core/downloader.py) -/

/-- Embedding of `build_format_string` (downloader.py line 29). -/
def build_format_string (mode : String) (quality : Option Int) : Except String String :=
  let mode_lower := strLower mode
  if ¬(mode_lower = "audio" ∨ mode_lower = "video") then
    .error "Mode must be \"audio\" or \"video\"."
  else if mode_lower = "audio" then .ok "bestaudio/best"
  else
    match quality with
    | none => .ok "bestvideo+bestaudio/best"
    | some q => .ok ("bestvideo[height<=" ++ intDec q ++ "]+bestaudio/best")

deriving instance DecidableEq for Except

/-! ### Media Converter (src/ripped/core/converter.py) -/

def MEDIA_EXTENSIONS : List String := [".webm", ".mkv"]

/-- Name built in the body of the `_dedupe_output_path` while loop at counter
value `counter` (converter.py line 46):
`base.with_name(f"{base.stem}_converted{'' if counter == 1 else f'_{counter-1}'}{base.suffix}")`. -/
def converted_name (base : MPath) (counter : Nat) : MPath :=
  { base with
    stem := base.stem ++ "_converted" ++ (if counter = 1 then "" else "_" ++ natDec (counter - 1)) }

/-- The successive values taken by `output_path` inside `_dedupe_output_path`:
index 0 is `base_output` itself; index `i ≥ 1` is the name built at counter `i`. -/
def candSeq (base : MPath) : Nat → MPath
  | 0 => base
  | i + 1 => converted_name base (i + 1)

/-- The while loop of `_dedupe_output_path`, with explicit fuel.  State:
current `output_path` and current `counter`. -/
def dedupeLoop (fs : FS) (base : MPath) : Nat → MPath → Nat → MPath
  | 0, output, _ => output
  | fuel + 1, output, counter =>
    if pathExists fs output then dedupeLoop fs base fuel (converted_name base counter) (counter + 1)
    else output

/-- Embedding of `_dedupe_output_path` (converter.py line 42).  The Python loop
runs until a free name is found; fuel `|files| + |dirs| + 2` always suffices
because the candidate names are pairwise distinct (`dedupe_finds_free` below),
so the fuel-exhausted branch of `dedupeLoop` is unreachable. -/
def _dedupe_output_path (fs : FS) (base_output : MPath) : MPath :=
  dedupeLoop fs base_output (fs.files.length + fs.fsdirs.length + 2) base_output 1

/-- Observable interactions with the external transcoding capability. -/
inductive Event where
  | probeFfmpeg
  | runFfmpeg (source output : MPath)
deriving DecidableEq, Repr

/-- Behavior of one `subprocess.run(["ffmpeg", ...])` invocation: whether the
call raises `FileNotFoundError`, the exit status, the size of the output file
the tool leaves behind (`none` = no file written), and whether a subsequent
`Path.unlink()` of the original succeeds (OSError model for the cleanup). -/
structure FfRun where
  raises : Bool
  rc : Int
  writes : Option Nat
  unlinkOk : Bool
deriving DecidableEq, Repr

/-- Result of `convert_to_mp4_in_place`: the returned path, the `None` return,
or an uncaught `FileNotFoundError` (ffmpeg unavailable). -/
inductive ConvResult where
  | ok (p : MPath)
  | failed
  | toolMissing
deriving DecidableEq, Repr

def ConvResult.isOk : ConvResult → Bool
  | .ok _ => true
  | _ => false

/-- Embedding of `convert_to_mp4_in_place` (converter.py line 58).  `avail`
models `shutil.which("ffmpeg") is not None`; `run` models the single ffmpeg
invocation the function performs.  Returns the result, the filesystem after
the call, and the trace of external-tool interactions. -/
def convert_to_mp4_in_place (avail : Bool) (run : FfRun) (fs : FS) (input_path : MPath) :
    ConvResult × FS × List Event :=
  if avail = false then (.toolMissing, fs, [.probeFfmpeg])
  else
    let source := input_path
    let suffix := strLower source.ext
    if pathExists fs source = false then (.failed, fs, [.probeFfmpeg])
    else if suffix = ".mp4" then (.ok source, fs, [.probeFfmpeg])
    else if ¬(suffix ∈ MEDIA_EXTENSIONS) then (.failed, fs, [.probeFfmpeg])
    else
      let desired_output : MPath := { source with ext := ".mp4" }
      let output_path :=
        if pathExists fs desired_output then _dedupe_output_path fs desired_output
        else desired_output
      if run.raises then (.toolMissing, fs, [.probeFfmpeg, .runFfmpeg source output_path])
      else
        let fs1 := match run.writes with
          | some sz => fs.setFile output_path sz
          | none => fs
        if run.rc ≠ 0 then
          (.failed, if pathExists fs1 output_path then fs1.removeFile output_path else fs1,
            [.probeFfmpeg, .runFfmpeg source output_path])
        else if pathExists fs1 output_path = false ∨ fs1.size output_path = 0 then
          (.failed, if pathExists fs1 output_path then fs1.removeFile output_path else fs1,
            [.probeFfmpeg, .runFfmpeg source output_path])
        else if run.unlinkOk then
          (.ok output_path, fs1.removeFile source, [.probeFfmpeg, .runFfmpeg source output_path])
        else
          (.ok output_path, fs1, [.probeFfmpeg, .runFfmpeg source output_path])

/-- Embedding of `find_media_files` (converter.py line 23).  The `os.walk`
branch enumerates every file whose directory chain extends the root's
component list. -/
def find_media_files (fs : FS) (target_path : MPath) : List MPath :=
  let root := target_path
  if fs.isFile root then
    (if memB (strLower root.ext) MEDIA_EXTENSIONS then [root] else [])
  else if fs.isDir root = false then []
  else
    fs.filePaths.filter
      (fun p => root.components.isPrefixOf p.dirs && memB (strLower p.ext) MEDIA_EXTENSIONS)

/-! ### Bulk Conversion Sweep (converter.py line 122) -/

/-- Result of the per-file loop of `run_bulk_conversion`: the success/failure
tally (`none` when a `FileNotFoundError` escaped, aborting the loop), the
final filesystem, the event trace, and each file's conversion result. -/
structure BulkLoopRes where
  tally : Option (Nat × Nat)
  fs : FS
  events : List Event
  results : List ConvResult
deriving DecidableEq, Repr

def bulkLoop (avail : Bool) (runs : Nat → FfRun) :
    List MPath → Nat → FS → BulkLoopRes
  | [], _, fs => ⟨some (0, 0), fs, [], []⟩
  | media_file :: rest, i, fs =>
    let step := convert_to_mp4_in_place avail (runs i) fs media_file
    if step.1 = .toolMissing then ⟨none, step.2.1, step.2.2, [step.1]⟩
    else
      let next := bulkLoop avail runs rest (i + 1) step.2.1
      match next.tally with
      | none => ⟨none, next.fs, step.2.2 ++ next.events, step.1 :: next.results⟩
      | some (s, f) =>
        ⟨some (if step.1.isOk then s + 1 else s, if step.1.isOk then f else f + 1),
          next.fs, step.2.2 ++ next.events, step.1 :: next.results⟩

inductive BulkOutcome where
  | code (c : Nat)
  | raised
deriving DecidableEq, Repr

structure BulkRes where
  outcome : BulkOutcome
  fs : FS
  events : List Event
  results : List ConvResult
deriving DecidableEq, Repr

/-- Embedding of `run_bulk_conversion` (converter.py line 122).  `runs i` is
the behavior of the ffmpeg invocation for the `i`-th candidate.  The
`KeyboardInterrupt` path is not modelled (no interruption occurs). -/
def run_bulk_conversion (avail : Bool) (runs : Nat → FfRun) (fs : FS) (target_path : MPath) :
    BulkRes :=
  let files := find_media_files fs target_path
  if files = [] then ⟨.code 2, fs, [], []⟩
  else if avail = false then ⟨.code 2, fs, [.probeFfmpeg], []⟩
  else
    let lr := bulkLoop avail runs files 0 fs
    match lr.tally with
    | none => ⟨.raised, lr.fs, .probeFfmpeg :: lr.events, lr.results⟩
    | some (s, _f) => ⟨.code (if s > 0 then 0 else 2), lr.fs, .probeFfmpeg :: lr.events, lr.results⟩

/-! ### Download Orchestrator (src/ripped/main.py) -/

/-- Model of Python `str(path)` for log messages. -/
def joinPath : List String → String
  | [] => ""
  | [c] => c
  | c :: rest => c ++ "/" ++ joinPath rest

/-- Embedding of `format_quality_label` (main.py line 38). -/
def format_quality_label (quality : Option Int) : String :=
  match quality with
  | none => "max"
  | some q => intDec q

/-- Model of `output_dir.mkdir(parents=True, exist_ok=True)` for the fixed
relative output directory `downloads`. -/
def mkdirOutput (fs : FS) : FS :=
  if memB ["downloads"] fs.fsdirs then fs else { fs with fsdirs := ["downloads"] :: fs.fsdirs }

/-- Outcome of `download_with_ytdlp`: the downloaded file (with its size, so
the filesystem model can record it) or a raised error. -/
inductive DlOutcome where
  | ok (filepath : MPath) (size : Nat)
  | errRuntime (msg : String)
  | errOther (msg : String)
deriving DecidableEq, Repr

structure PdRes where
  exitCode : Nat
  final : Option MPath
  logs : List (Bool × String)
  fs : FS
deriving DecidableEq, Repr

/-- Embedding of `perform_download` (main.py line 77).  Log entries are
`(isError, message)` pairs; the ffmpeg stderr text interpolated into the two
audio-branch error messages is environment data and is rendered as a fixed
placeholder.  Returns exit code, final artifact path, logs, and filesystem. -/
def perform_download (mode : String) (quality : Option Int) (url : String)
    (dl : DlOutcome) (avail : Bool) (ffRun : FfRun) (fs : FS) : PdRes :=
  match build_format_string mode quality with
  | .error e => ⟨1, none, [(true, e)], fs⟩
  | .ok format_str =>
    let logs0 : List (Bool × String) :=
      [(false, "Mode: " ++ mode), (false, "Quality: " ++ format_quality_label quality),
        (false, "URL: " ++ url), (false, "Format string: " ++ format_str)]
    let fs := mkdirOutput fs
    match dl with
    | .errRuntime msg => ⟨2, none, logs0 ++ [(true, msg)], fs⟩
    | .errOther msg => ⟨2, none, logs0 ++ [(true, "Download failed: " ++ msg)], fs⟩
    | .ok downloaded_path sz =>
      let fs := fs.setFile downloaded_path sz
      if mode = "audio" then
        let mp3_path : MPath := { downloaded_path with ext := ".mp3" }
        if avail = false then
          ⟨3, none, logs0 ++ [(true, "ffmpeg not found in PATH. Please install ffmpeg to proceed.")], fs⟩
        else if ffRun.raises then
          ⟨3, none, logs0 ++ [(true, "ffmpeg not found")], fs⟩
        else
          let fs := match ffRun.writes with
            | some msz => fs.setFile mp3_path msz
            | none => fs
          if ffRun.rc ≠ 0 then ⟨3, none, logs0 ++ [(true, "ffmpeg error: <stderr>")], fs⟩
          else ⟨0, some mp3_path,
            logs0 ++ [(false, "Saved audio to: " ++ joinPath mp3_path.components)], fs⟩
      else
        let conv := convert_to_mp4_in_place avail ffRun fs downloaded_path
        match conv.1 with
        | .toolMissing =>
          ⟨3, none,
            logs0 ++ [(true, "ffmpeg not found. Please install ffmpeg and ensure it is in your PATH.")],
            conv.2.1⟩
        | .ok converted_path =>
          ⟨0, some converted_path,
            logs0 ++ [(false, "Downloaded and converted to: " ++ joinPath converted_path.components)],
            conv.2.1⟩
        | .failed =>
          ⟨0, some downloaded_path,
            logs0 ++
              [(true, "Conversion to mp4 failed; keeping original file (may be Resolve-incompatible)."),
                (false, "Saved video to: " ++ joinPath downloaded_path.components)],
            conv.2.1⟩

/-! ### Theorems -/

theorem strData_append (s t : String) : (s ++ t).data = s.data ++ t.data := rfl

theorem strExt {s t : String} (h : s.data = t.data) : s = t := by
  cases s; cases t; exact congrArg String.mk h

theorem digitChar_val {n : Nat} (h : n < 10) : (Nat.digitChar n).toNat - 48 = n := by
  interval_cases n <;> decide

theorem decodeDec_append_singleton (l : List Char) (c : Char) :
    decodeDec (l ++ [c]) = decodeDec l * 10 + (c.toNat - 48) := by
  simp [decodeDec, List.foldl_append]

theorem decodeDec_natDecCore : ∀ fuel n, n < 10 ^ fuel →
    decodeDec (natDecCore fuel n) = n := by
  intro fuel
  induction fuel with
  | zero =>
    intro n hn
    have : n = 0 := by simpa using hn
    subst this
    rfl
  | succ fuel ih =>
    intro n hn
    by_cases h10 : n < 10
    · simp only [natDecCore, if_pos h10]
      have := digitChar_val h10
      simp [decodeDec, this]
    · simp only [natDecCore, if_neg h10]
      have hdiv : n / 10 < 10 ^ fuel := by
        have hpow : 10 ^ (fuel + 1) = 10 ^ fuel * 10 := by ring
        rw [hpow] at hn
        exact Nat.div_lt_of_lt_mul (by omega)
      rw [decodeDec_append_singleton, ih (n / 10) hdiv,
        digitChar_val (Nat.mod_lt n (by omega))]
      omega

theorem lt_ten_pow_succ (n : Nat) : n < 10 ^ (n + 1) := by
  induction n with
  | zero => decide
  | succ n ih =>
    have h1 : 10 ^ (n + 1) < 10 ^ (n + 2) :=
      Nat.pow_lt_pow_right (by omega) (by omega)
    omega

theorem natDec_injective : Function.Injective natDec := by
  intro a b hab
  have hdata : natDecCore (a + 1) a = natDecCore (b + 1) b := congrArg String.data hab
  have ha := decodeDec_natDecCore (a + 1) a (lt_ten_pow_succ a)
  have hb := decodeDec_natDecCore (b + 1) b (lt_ten_pow_succ b)
  rw [← ha, ← hb, hdata]

theorem natDecCore_ne_nil (fuel n : Nat) : natDecCore (fuel + 1) n ≠ [] := by
  simp only [natDecCore]
  split
  · simp
  · simp

theorem natDec_length_pos (n : Nat) : 0 < (natDec n).length := by
  have h := natDecCore_ne_nil n n
  have : (natDec n).data = natDecCore (n + 1) n := rfl
  simp only [String.length, this]
  exact List.length_pos.mpr h

theorem memB_iff {α : Type} [DecidableEq α] (a : α) (l : List α) :
    memB a l = true ↔ a ∈ l := by simp [memB]

/-! ### Dedupe correctness: the candidate names are pairwise distinct, so the
while loop of `_dedupe_output_path` always reaches a free name within the
fuel supplied. -/

theorem candSeq_dirs (base : MPath) (i : Nat) : (candSeq base i).dirs = base.dirs := by
  cases i <;> rfl

theorem candSeq_ext (base : MPath) (i : Nat) : (candSeq base i).ext = base.ext := by
  cases i <;> rfl

theorem candSeq_stem_one (base : MPath) :
    (candSeq base 1).stem.data = base.stem.data ++ "_converted".data := by
  show (base.stem ++ "_converted" ++ (if (1 : Nat) = 1 then "" else "_" ++ natDec (1 - 1))).data = _
  rw [if_pos rfl]
  simp [strData_append]

theorem candSeq_stem_two (base : MPath) (k : Nat) :
    (candSeq base (k + 2)).stem.data =
      base.stem.data ++ ("_converted".data ++ '_' :: (natDec (k + 1)).data) := by
  show (base.stem ++ "_converted" ++ (if k + 2 = 1 then "" else "_" ++ natDec (k + 2 - 1))).data = _
  rw [if_neg (by omega)]
  have harith : k + 2 - 1 = k + 1 := by omega
  rw [harith]
  simp [strData_append]

theorem strLen_data (s : String) : s.length = s.data.length := rfl

theorem candSeq_stem_len_one (base : MPath) :
    (candSeq base 1).stem.length = base.stem.length + 10 := by
  have h := congrArg List.length (candSeq_stem_one base)
  simp only [List.length_append, List.length_cons, List.length_nil] at h
  rw [strLen_data, strLen_data]
  omega

theorem candSeq_stem_len_two (base : MPath) (k : Nat) :
    (candSeq base (k + 2)).stem.length = base.stem.length + 11 + (natDec (k + 1)).length := by
  have h := congrArg List.length (candSeq_stem_two base k)
  simp only [List.length_append, List.length_cons, List.length_nil] at h
  rw [strLen_data, strLen_data, strLen_data]
  omega

theorem candSeq_stem_len (base : MPath) (i : Nat) :
    (candSeq base i).stem.length =
      base.stem.length + (if i = 0 then 0 else if i = 1 then 10 else 11 + (natDec (i - 1)).length) := by
  match i with
  | 0 => simp [candSeq]
  | 1 => simpa using candSeq_stem_len_one base
  | (k + 2) =>
    rw [if_neg (by omega : ¬(k + 2 = 0)), if_neg (by omega : ¬(k + 2 = 1))]
    have harith : k + 2 - 1 = k + 1 := by omega
    rw [harith, candSeq_stem_len_two base k]
    omega

theorem candSeq_stem_inj (base : MPath) :
    ∀ i j, (candSeq base i).stem = (candSeq base j).stem → i = j := by
  intro i j h
  have hl := congrArg String.length h
  rw [candSeq_stem_len base i, candSeq_stem_len base j] at hl
  have hpi : 0 < (natDec (i - 1)).length := natDec_length_pos (i - 1)
  have hpj : 0 < (natDec (j - 1)).length := natDec_length_pos (j - 1)
  by_cases hi0 : i = 0 <;> by_cases hj0 : j = 0
  · omega
  · by_cases hj1 : j = 1 <;> simp [hi0, hj0, hj1] at hl
  · by_cases hi1 : i = 1 <;> simp [hi0, hj0, hi1] at hl
  · by_cases hi1 : i = 1 <;> by_cases hj1 : j = 1
    · omega
    · simp [hi0, hj0, hi1, hj1] at hl
      omega
    · simp [hi0, hj0, hi1, hj1] at hl
      omega
    · obtain ⟨k, rfl⟩ : ∃ k, i = k + 2 := ⟨i - 2, by omega⟩
      obtain ⟨l, rfl⟩ : ∃ l, j = l + 2 := ⟨j - 2, by omega⟩
      have hd := congrArg String.data h
      rw [candSeq_stem_two base k, candSeq_stem_two base l] at hd
      have h1 := List.append_cancel_left hd
      have h2 := List.append_cancel_left h1
      have h3 : (natDec (k + 1)).data = (natDec (l + 1)).data := by
        injection h2
      have h4 := natDec_injective (strExt h3)
      omega

theorem candSeq_injective (base : MPath) : Function.Injective (candSeq base) := by
  intro i j h
  exact candSeq_stem_inj base i j (congrArg MPath.stem h)

theorem candSeq_components_injective (base : MPath) :
    Function.Injective (fun i => (candSeq base i).components) := by
  intro i j h
  simp only [MPath.components, candSeq_dirs, candSeq_ext] at h
  have h2 := List.append_cancel_left h
  have h3 : (candSeq base i).stem ++ base.ext = (candSeq base j).stem ++ base.ext := by
    simpa using h2
  have h4 : (candSeq base i).stem.data ++ base.ext.data =
      (candSeq base j).stem.data ++ base.ext.data := by
    have h5 := congrArg String.data h3
    simpa [strData_append] using h5
  exact candSeq_stem_inj base i j (strExt (List.append_cancel_right h4))

theorem dedupe_finds_free (fs : FS) (base : MPath) :
    ∃ i, i < fs.files.length + fs.fsdirs.length + 2 ∧
      pathExists fs (candSeq base i) = false := by
  by_contra hcon
  push_neg at hcon
  have hall : ∀ i, i < fs.files.length + fs.fsdirs.length + 2 →
      pathExists fs (candSeq base i) = true := by
    intro i hi
    have h := hcon i hi
    cases hx : pathExists fs (candSeq base i)
    · exact absurd hx h
    · rfl
  have hnodup :
      ((List.range (fs.files.length + fs.fsdirs.length + 2)).map
        (fun i => (candSeq base i).components)).Nodup :=
    List.Nodup.map (candSeq_components_injective base) (List.nodup_range _)
  have hsub :
      ((List.range (fs.files.length + fs.fsdirs.length + 2)).map
        (fun i => (candSeq base i).components)) ⊆
        fs.filePaths.map MPath.components ++ fs.fsdirs := by
    intro x hx
    rw [List.mem_map] at hx
    obtain ⟨i, hi, rfl⟩ := hx
    rw [List.mem_range] at hi
    have hocc := hall i hi
    rw [pathExists, Bool.or_eq_true] at hocc
    rcases hocc with hf | hd
    · rw [FS.isFile, memB_iff] at hf
      exact List.mem_append_left _ (List.mem_map_of_mem MPath.components hf)
    · rw [FS.isDir, memB_iff] at hd
      exact List.mem_append_right _ hd
  have hle := (List.subperm_of_subset hnodup hsub).length_le
  simp only [List.length_map, List.length_range, List.length_append, FS.filePaths] at hle
  omega

theorem dedupeLoop_go (fs : FS) (base : MPath) : ∀ fuel c,
    (∃ k, k < fuel ∧ pathExists fs (candSeq base (c + k)) = false) →
    ∃ m, c ≤ m ∧ dedupeLoop fs base fuel (candSeq base c) (c + 1) = candSeq base m ∧
      pathExists fs (candSeq base m) = false ∧
      ∀ j, c ≤ j → j < m → pathExists fs (candSeq base j) = true := by
  intro fuel
  induction fuel with
  | zero =>
    intro c h
    obtain ⟨k, hk, _⟩ := h
    omega
  | succ fuel ih =>
    intro c h
    obtain ⟨k, hk, hfree⟩ := h
    by_cases hocc : pathExists fs (candSeq base c) = true
    · have hk0 : k ≠ 0 := by
        intro h0
        rw [h0, Nat.add_zero] at hfree
        rw [hfree] at hocc
        exact Bool.noConfusion hocc
      obtain ⟨k', rfl⟩ : ∃ k', k = k' + 1 := ⟨k - 1, by omega⟩
      have hstep : dedupeLoop fs base (fuel + 1) (candSeq base c) (c + 1) =
          dedupeLoop fs base fuel (candSeq base (c + 1)) (c + 1 + 1) := by
        simp only [dedupeLoop, hocc, if_true]
        rfl
      have hfree' : pathExists fs (candSeq base (c + 1 + k')) = false := by
        have harith : c + 1 + k' = c + (k' + 1) := by omega
        rw [harith]
        exact hfree
      obtain ⟨m, hm1, hm2, hm3, hm4⟩ := ih (c + 1) ⟨k', by omega, hfree'⟩
      refine ⟨m, by omega, ?_, hm3, ?_⟩
      · rw [hstep]
        exact hm2
      · intro j hj1 hj2
        rcases Nat.eq_or_lt_of_le hj1 with heq | hlt
        · rw [← heq]
          exact hocc
        · exact hm4 j hlt hj2
    · have hocc' : pathExists fs (candSeq base c) = false := by
        cases hx : pathExists fs (candSeq base c)
        · rfl
        · exact absurd hx hocc
      refine ⟨c, Nat.le_refl c, ?_, hocc', ?_⟩
      · simp only [dedupeLoop, hocc']
        rfl
      · intro j hj1 hj2
        omega

/-- Shared characterization of `_dedupe_output_path`: it returns the first
candidate in the sequence `base, base_converted, base_converted_1, ...` that
does not exist on the filesystem. -/
theorem dedupe_first_free (fs : FS) (base : MPath) :
    ∃ m, _dedupe_output_path fs base = candSeq base m ∧
      pathExists fs (candSeq base m) = false ∧
      ∀ j, j < m → pathExists fs (candSeq base j) = true := by
  obtain ⟨i, hi, hfree⟩ := dedupe_finds_free fs base
  obtain ⟨m, _, h2, h3, h4⟩ := dedupeLoop_go fs base (fs.files.length + fs.fsdirs.length + 2) 0
    ⟨i, hi, by simpa using hfree⟩
  refine ⟨m, ?_, h3, fun j hj => h4 j (Nat.zero_le j) hj⟩
  rw [_dedupe_output_path]
  exact h2

theorem dedupe_not_exists (fs : FS) (base : MPath) :
    pathExists fs (_dedupe_output_path fs base) = false := by
  obtain ⟨m, h1, h2, _⟩ := dedupe_first_free fs base
  rw [h1]
  exact h2

/-! ### Filesystem helper lemmas -/

theorem pathExists_false_parts {fs : FS} {p : MPath} (h : pathExists fs p = false) :
    fs.isFile p = false ∧ fs.isDir p = false := by
  rw [pathExists, Bool.or_eq_false_iff] at h
  exact h

theorem filter_ne_of_isFile_false {fs : FS} {p : MPath} (h : fs.isFile p = false) :
    fs.files.filter (fun e => !(e.1 == p)) = fs.files := by
  rw [FS.isFile, FS.filePaths] at h
  apply List.filter_eq_self.mpr
  intro e he
  have hne : e.1 ≠ p := by
    intro hcontra
    have : p ∈ fs.files.map Prod.fst := by
      rw [← hcontra]
      exact List.mem_map_of_mem Prod.fst he
    rw [memB, decide_eq_false_iff_not] at h
    exact h this
  simp [hne]

theorem removeFile_setFile {fs : FS} {p : MPath} {sz : Nat} (h : fs.isFile p = false) :
    (fs.setFile p sz).removeFile p = fs := by
  rw [FS.setFile, FS.removeFile]
  have hhead : (!((p, sz).1 == p)) = false := by simp
  simp only [List.filter_cons, hhead, Bool.false_eq_true, if_false]
  rw [List.filter_filter]
  have : (fun e => !(e.1 == p) && !(e.1 == p)) = (fun e : MPath × Nat => !(e.1 == p)) := by
    funext e
    rw [Bool.and_self]
  rw [this, filter_ne_of_isFile_false h]

theorem removeFile_of_isFile_false {fs : FS} {p : MPath} (h : fs.isFile p = false) :
    fs.removeFile p = fs := by
  rw [FS.removeFile, filter_ne_of_isFile_false h]

theorem pathExists_setFile_self (fs : FS) (p : MPath) (sz : Nat) :
    pathExists (fs.setFile p sz) p = true := by
  have : (fs.setFile p sz).isFile p = true := by
    rw [FS.isFile, FS.filePaths, FS.setFile, memB]
    simp
  rw [pathExists, this, Bool.true_or]

theorem size_setFile_self (fs : FS) (p : MPath) (sz : Nat) :
    (fs.setFile p sz).size p = sz := by
  rw [FS.size, FS.setFile]
  simp [List.find?]

/-- C8: for every input file that already carries the canonical `.mp4`
extension (and with the transcoding tool present, which `_require_ffmpeg`
checks first), `convert_to_mp4_in_place` returns the same path unchanged as a
success, performs no ffmpeg invocation, and leaves the filesystem exactly as
it was (nothing deleted, nothing created) — so applying it to its own output
is a no-op. -/
theorem convert_mp4_noop (run : FfRun) (fs : FS) (source : MPath)
    (hfile : fs.isFile source = true) (hext : strLower source.ext = ".mp4") :
    convert_to_mp4_in_place true run fs source = (.ok source, fs, [.probeFfmpeg]) := by
  have hex : pathExists fs source = true := by
    rw [pathExists, hfile, Bool.true_or]
  simp [convert_to_mp4_in_place, hex, hext]

/-- C8 witness: a concrete filesystem holding `clip.mp4`, on which the
conversion is a success-no-op. -/
theorem convert_mp4_noop_witness :
    (FS.isFile ⟨[(⟨[], "clip", ".mp4"⟩, 9)], []⟩ ⟨[], "clip", ".mp4"⟩ = true ∧
      strLower (MPath.ext ⟨[], "clip", ".mp4"⟩) = ".mp4") ∧
    convert_to_mp4_in_place true ⟨false, 1, none, true⟩ ⟨[(⟨[], "clip", ".mp4"⟩, 9)], []⟩
      ⟨[], "clip", ".mp4"⟩ =
      (.ok ⟨[], "clip", ".mp4"⟩, ⟨[(⟨[], "clip", ".mp4"⟩, 9)], []⟩, [.probeFfmpeg]) :=
  ⟨⟨by decide, by decide⟩,
    convert_mp4_noop ⟨false, 1, none, true⟩ ⟨[(⟨[], "clip", ".mp4"⟩, 9)], []⟩
      ⟨[], "clip", ".mp4"⟩ (by decide) (by decide)⟩

/-- C10: when the resolved input file does not exist, `convert_to_mp4_in_place`
reports failure (returns `None`), invokes no ffmpeg run, and changes nothing —
for every input path, including ones whose extension is `.mp4`: the existence
check precedes the idempotent no-op branch. -/
theorem convert_missing_input (run : FfRun) (fs : FS) (source : MPath)
    (hmiss : pathExists fs source = false) :
    convert_to_mp4_in_place true run fs source = (.failed, fs, [.probeFfmpeg]) := by
  simp [convert_to_mp4_in_place, hmiss]

/-- C10 witness: a missing `clip.mp4` on an empty filesystem yields a failure
with no ffmpeg invocation. -/
theorem convert_missing_input_witness :
    pathExists ⟨[], []⟩ ⟨[], "clip", ".mp4"⟩ = false ∧
    convert_to_mp4_in_place true ⟨false, 0, some 5, true⟩ ⟨[], []⟩ ⟨[], "clip", ".mp4"⟩ =
      (.failed, ⟨[], []⟩, [.probeFfmpeg]) :=
  ⟨by decide,
    convert_missing_input ⟨false, 0, some 5, true⟩ ⟨[], []⟩ ⟨[], "clip", ".mp4"⟩ (by decide)⟩

/-- Core case analysis for a conversion attempt: with the tool present, the
input existing and convertible, and the ffmpeg process starting, the result is
success exactly when ffmpeg exits 0 and leaves a non-empty output file, and
every failure restores the filesystem unchanged. `out` abstracts the selected
output path (always free on the pre-call filesystem). -/
theorem convert_attempt_spec (run : FfRun) (fs : FS) (source out : MPath)
    (hex : pathExists fs source = true)
    (hmp4 : strLower source.ext ≠ ".mp4")
    (hmedia : strLower source.ext ∈ MEDIA_EXTENSIONS)
    (hraise : run.raises = false)
    (houtsel : (if pathExists fs { source with ext := ".mp4" } = true then
        _dedupe_output_path fs { source with ext := ".mp4" }
      else { source with ext := ".mp4" }) = out)
    (hout : pathExists fs out = false) :
    ((∃ p, (convert_to_mp4_in_place true run fs source).1 = .ok p) ↔
      (run.rc = 0 ∧ ∃ sz, run.writes = some sz ∧ sz ≠ 0)) ∧
    ((convert_to_mp4_in_place true run fs source).1 = .failed →
      (convert_to_mp4_in_place true run fs source).2.1 = fs) ∧
    (convert_to_mp4_in_place true run fs source).1 ≠ .toolMissing := by
  have hfileout := (pathExists_false_parts hout).1
  rcases hw : run.writes with _ | sz
  · have heq : convert_to_mp4_in_place true run fs source =
        (.failed, fs, [.probeFfmpeg, .runFfmpeg source out]) := by
      simp only [convert_to_mp4_in_place]
      rw [houtsel]
      simp [hex, hmp4, hmedia, hraise, hw, hout]
    rw [heq]
    refine ⟨?_, fun _ => rfl, by simp⟩
    simp [hw]
  · by_cases hrc : run.rc = 0
    · by_cases hsz0 : sz = 0
      · have heq : convert_to_mp4_in_place true run fs source =
            (.failed, fs, [.probeFfmpeg, .runFfmpeg source out]) := by
          simp only [convert_to_mp4_in_place]
          rw [houtsel]
          simp [hex, hmp4, hmedia, hraise, hw, hrc, hsz0, pathExists_setFile_self,
            size_setFile_self, removeFile_setFile hfileout]
        rw [heq]
        refine ⟨?_, fun _ => rfl, by simp⟩
        simp [hw, hsz0]
      · have heq1 : (convert_to_mp4_in_place true run fs source).1 = .ok out := by
          simp only [convert_to_mp4_in_place]
          rw [houtsel]
          by_cases hunlink : run.unlinkOk = true <;>
            simp [hex, hmp4, hmedia, hraise, hw, hrc, hsz0, hunlink,
              pathExists_setFile_self, size_setFile_self]
        refine ⟨?_, ?_, ?_⟩
        · exact ⟨fun _ => ⟨hrc, sz, rfl, hsz0⟩, fun _ => ⟨out, heq1⟩⟩
        · intro hfail
          rw [heq1] at hfail
          exact absurd hfail (by simp)
        · rw [heq1]
          simp
    · have heq : convert_to_mp4_in_place true run fs source =
          (.failed, fs, [.probeFfmpeg, .runFfmpeg source out]) := by
        simp only [convert_to_mp4_in_place]
        rw [houtsel]
        simp [hex, hmp4, hmedia, hraise, hw, hrc, pathExists_setFile_self,
          removeFile_setFile hfileout]
      rw [heq]
      refine ⟨?_, fun _ => rfl, by simp⟩
      simp [hrc]

/-- C3: for every conversion attempt by `convert_to_mp4_in_place` (tool
present, existing input with a convertible non-`.mp4` extension, ffmpeg
process started), success is reported iff ffmpeg exited with status zero AND
the output file exists AND its size is non-zero; in every other outcome the
function reports failure (never the tool-missing raise) and the filesystem is
exactly the pre-call one: the partially written output (if any) was deleted
and the original input is untouched. -/
theorem convert_success_spec (run : FfRun) (fs : FS) (source : MPath)
    (hex : pathExists fs source = true)
    (hmp4 : strLower source.ext ≠ ".mp4")
    (hmedia : strLower source.ext ∈ MEDIA_EXTENSIONS)
    (hraise : run.raises = false) :
    ((∃ p, (convert_to_mp4_in_place true run fs source).1 = .ok p) ↔
      (run.rc = 0 ∧ ∃ sz, run.writes = some sz ∧ sz ≠ 0)) ∧
    ((convert_to_mp4_in_place true run fs source).1 = .failed →
      (convert_to_mp4_in_place true run fs source).2.1 = fs) ∧
    (convert_to_mp4_in_place true run fs source).1 ≠ .toolMissing := by
  by_cases hdes : pathExists fs { source with ext := ".mp4" } = true
  · exact convert_attempt_spec run fs source _ hex hmp4 hmedia hraise (if_pos hdes)
      (dedupe_not_exists fs _)
  · have hdes' : pathExists fs { source with ext := ".mp4" } = false := by
      rwa [Bool.not_eq_true] at hdes
    exact convert_attempt_spec run fs source _ hex hmp4 hmedia hraise (if_neg hdes) hdes'

/-- C3 witness: a concrete `a.webm` with a successful ffmpeg run (exit 0,
non-empty output) is reported as success, matching the characterization. -/
theorem convert_success_spec_witness :
    (pathExists ⟨[(⟨[], "a", ".webm"⟩, 3)], []⟩ ⟨[], "a", ".webm"⟩ = true ∧
      strLower (MPath.ext ⟨[], "a", ".webm"⟩) ≠ ".mp4" ∧
      strLower (MPath.ext ⟨[], "a", ".webm"⟩) ∈ MEDIA_EXTENSIONS ∧
      FfRun.raises ⟨false, 0, some 7, true⟩ = false) ∧
    ((∃ p, (convert_to_mp4_in_place true ⟨false, 0, some 7, true⟩
        ⟨[(⟨[], "a", ".webm"⟩, 3)], []⟩ ⟨[], "a", ".webm"⟩).1 = .ok p) ↔
      ((⟨false, 0, some 7, true⟩ : FfRun).rc = 0 ∧
        ∃ sz, (⟨false, 0, some 7, true⟩ : FfRun).writes = some sz ∧ sz ≠ 0)) :=
  ⟨⟨by decide, by decide, by decide, by decide⟩,
    (convert_success_spec ⟨false, 0, some 7, true⟩ ⟨[(⟨[], "a", ".webm"⟩, 3)], []⟩
      ⟨[], "a", ".webm"⟩ (by decide) (by decide) (by decide) (by decide)).1⟩

/-! ### C2: deduplication -/

theorem candSeq_one_eq (base : MPath) :
    candSeq base 1 = ⟨base.dirs, base.stem ++ "_converted", base.ext⟩ := by
  have hstem : (candSeq base 1).stem = base.stem ++ "_converted" := by
    apply strExt
    rw [candSeq_stem_one, strData_append]
  have heta : candSeq base 1 = ⟨(candSeq base 1).dirs, (candSeq base 1).stem,
      (candSeq base 1).ext⟩ := rfl
  rw [heta, candSeq_dirs, candSeq_ext, hstem]

theorem candSeq_two_eq (base : MPath) (k : Nat) :
    candSeq base (k + 2) = ⟨base.dirs, base.stem ++ "_converted_" ++ natDec (k + 1), base.ext⟩ := by
  have hstem : (candSeq base (k + 2)).stem = base.stem ++ "_converted_" ++ natDec (k + 1) := by
    apply strExt
    rw [candSeq_stem_two, strData_append, strData_append,
      show ("_converted_" : String).data = ("_converted" : String).data ++ ['_'] from rfl]
    simp [List.append_assoc]
  have heta : candSeq base (k + 2) = ⟨(candSeq base (k + 2)).dirs, (candSeq base (k + 2)).stem,
      (candSeq base (k + 2)).ext⟩ := rfl
  rw [heta, candSeq_dirs, candSeq_ext, hstem]

/-- C2 counterexample: with `video.mp4` and `video_converted.mp4` both
existing, the next name chosen by `_dedupe_output_path` is
`video_converted_1.mp4`, not the `video_converted_2.mp4` the claim predicts
for the collision after `_converted`. -/
theorem dedupe_third_name_counterexample :
    _dedupe_output_path ⟨[(⟨[], "video", ".mp4"⟩, 1), (⟨[], "video_converted", ".mp4"⟩, 1)], []⟩
        ⟨[], "video", ".mp4"⟩ = ⟨[], "video_converted_1", ".mp4"⟩ ∧
    (⟨[], "video_converted_1", ".mp4"⟩ : MPath) ≠ ⟨[], "video_converted_2", ".mp4"⟩ :=
  ⟨by decide, by decide⟩

/-- C2 (amended): for every existing desired output path, `_dedupe_output_path`
returns the first free name in the sequence whose first collision name appends
`_converted` to the stem and whose subsequent collision names append
`_converted_1`, `_converted_2`, ... in increasing order (so a second conversion
of the same stem yields the `_converted` suffix and a third yields
`_converted_1`); every name tried before the chosen one exists, and the chosen
name does not exist — nothing is ever overwritten. -/
theorem dedupe_output_path_first_free (fs : FS) (base_output : MPath) :
    (candSeq base_output 1 =
        ⟨base_output.dirs, base_output.stem ++ "_converted", base_output.ext⟩ ∧
      ∀ k, candSeq base_output (k + 2) =
        ⟨base_output.dirs, base_output.stem ++ "_converted_" ++ natDec (k + 1), base_output.ext⟩) ∧
    ∃ m, _dedupe_output_path fs base_output = candSeq base_output m ∧
      pathExists fs (candSeq base_output m) = false ∧
      ∀ j, j < m → pathExists fs (candSeq base_output j) = true :=
  ⟨⟨candSeq_one_eq base_output, candSeq_two_eq base_output⟩, dedupe_first_free fs base_output⟩

/-- C2 witness: the characterization applied to the concrete two-collision
filesystem of the counterexample. -/
theorem dedupe_output_path_first_free_witness :
    (candSeq ⟨[], "video", ".mp4"⟩ 1 = ⟨[], "video" ++ "_converted", ".mp4"⟩ ∧
      ∀ k, candSeq ⟨[], "video", ".mp4"⟩ (k + 2) =
        ⟨[], "video" ++ "_converted_" ++ natDec (k + 1), ".mp4"⟩) ∧
    ∃ m, _dedupe_output_path
        ⟨[(⟨[], "video", ".mp4"⟩, 1), (⟨[], "video_converted", ".mp4"⟩, 1)], []⟩
        ⟨[], "video", ".mp4"⟩ = candSeq ⟨[], "video", ".mp4"⟩ m ∧
      pathExists ⟨[(⟨[], "video", ".mp4"⟩, 1), (⟨[], "video_converted", ".mp4"⟩, 1)], []⟩
        (candSeq ⟨[], "video", ".mp4"⟩ m) = false ∧
      ∀ j, j < m →
        pathExists ⟨[(⟨[], "video", ".mp4"⟩, 1), (⟨[], "video_converted", ".mp4"⟩, 1)], []⟩
          (candSeq ⟨[], "video", ".mp4"⟩ j) = true :=
  dedupe_output_path_first_free
    ⟨[(⟨[], "video", ".mp4"⟩, 1), (⟨[], "video_converted", ".mp4"⟩, 1)], []⟩
    ⟨[], "video", ".mp4"⟩

/-! ### C4: bulk conversion sweep -/

theorem convert_not_toolMissing (run : FfRun) (fs : FS) (p : MPath)
    (hr : run.raises = false) :
    (convert_to_mp4_in_place true run fs p).1 ≠ .toolMissing := by
  by_cases h1 : pathExists fs p = true
  · by_cases h2 : strLower p.ext = ".mp4"
    · simp [convert_to_mp4_in_place, h1, h2]
    · by_cases h3 : strLower p.ext ∈ MEDIA_EXTENSIONS
      · by_cases hdes : pathExists fs { p with ext := ".mp4" } = true
        · exact (convert_attempt_spec run fs p _ h1 h2 h3 hr (if_pos hdes)
            (dedupe_not_exists fs _)).2.2
        · exact (convert_attempt_spec run fs p _ h1 h2 h3 hr (if_neg hdes)
            (by rwa [Bool.not_eq_true] at hdes)).2.2
      · simp [convert_to_mp4_in_place, h1, h2, h3]
  · have h1f : pathExists fs p = false := by rwa [Bool.not_eq_true] at h1
    simp [convert_to_mp4_in_place, h1f]

theorem bulkLoop_spec (runs : Nat → FfRun) (hr : ∀ j, (runs j).raises = false) :
    ∀ files i fs, ∃ s f, (bulkLoop true runs files i fs).tally = some (s, f) ∧
      (0 < s ↔ (bulkLoop true runs files i fs).results.any ConvResult.isOk = true) := by
  intro files
  induction files with
  | nil =>
    intro i fs
    exact ⟨0, 0, rfl, by simp [bulkLoop]⟩
  | cons media rest ih =>
    intro i fs
    have hnm := convert_not_toolMissing (runs i) fs media (hr i)
    obtain ⟨s, f, hts, hiff⟩ := ih (i + 1) (convert_to_mp4_in_place true (runs i) fs media).2.1
    simp only [bulkLoop]
    rw [if_neg hnm, hts]
    by_cases hok : (convert_to_mp4_in_place true (runs i) fs media).1.isOk = true
    · exact ⟨s + 1, f, by simp [hok], by simp [hok]⟩
    · have hok' : (convert_to_mp4_in_place true (runs i) fs media).1.isOk = false := by
        rwa [Bool.not_eq_true] at hok
      exact ⟨s, f + 1, by simp [hok'], by simpa [hok'] using hiff⟩

/-- C4: for every target path (given that each ffmpeg invocation starts, i.e.
does not raise), `run_bulk_conversion` returns the success exit code 0 if and
only if at least one candidate file's conversion returned success; and when
the candidate set is empty it returns exit code 2 with an empty event trace,
never invoking nor probing the transcoding capability. -/
theorem run_bulk_conversion_exit_spec (avail : Bool) (runs : Nat → FfRun) (fs : FS)
    (target_path : MPath) (hr : ∀ j, (runs j).raises = false) :
    (find_media_files fs target_path = [] →
      run_bulk_conversion avail runs fs target_path = ⟨.code 2, fs, [], []⟩) ∧
    ((run_bulk_conversion avail runs fs target_path).outcome = .code 0 ↔
      (run_bulk_conversion avail runs fs target_path).results.any ConvResult.isOk = true) := by
  constructor
  · intro hempty
    simp [run_bulk_conversion, hempty]
  · by_cases hempty : find_media_files fs target_path = []
    · simp [run_bulk_conversion, hempty]
    · rcases havail : avail with _ | _
      · simp [run_bulk_conversion, hempty]
      · obtain ⟨s, f, hts, hiff⟩ := bulkLoop_spec runs hr (find_media_files fs target_path) 0 fs
        have hkey : run_bulk_conversion true runs fs target_path =
            ⟨.code (if s > 0 then 0 else 2),
              (bulkLoop true runs (find_media_files fs target_path) 0 fs).fs,
              .probeFfmpeg :: (bulkLoop true runs (find_media_files fs target_path) 0 fs).events,
              (bulkLoop true runs (find_media_files fs target_path) 0 fs).results⟩ := by
          simp only [run_bulk_conversion]
          rw [if_neg hempty, if_neg (by simp : ¬((true : Bool) = false)), hts]
        rw [hkey]
        by_cases hs : 0 < s
        · rw [if_pos hs]
          exact ⟨fun _ => hiff.mp hs, fun _ => rfl⟩
        · rw [if_neg hs]
          constructor
          · intro hcode
            exact absurd hcode (by simp)
          · intro hany
            exact absurd (hiff.mpr hany) hs

/-- C4 witness: a directory `d` holding `d/a.webm`, with a succeeding ffmpeg
run, exits with code 0 matching the at-least-one-success characterization. -/
theorem run_bulk_conversion_exit_spec_witness :
    (∀ j, ((fun (_ : Nat) => (⟨false, 0, some 5, true⟩ : FfRun)) j).raises = false) ∧
    ((run_bulk_conversion true (fun (_ : Nat) => ⟨false, 0, some 5, true⟩)
        ⟨[(⟨["d"], "a", ".webm"⟩, 3)], [["d"]]⟩ ⟨[], "d", ""⟩).outcome = .code 0 ↔
      (run_bulk_conversion true (fun (_ : Nat) => ⟨false, 0, some 5, true⟩)
        ⟨[(⟨["d"], "a", ".webm"⟩, 3)], [["d"]]⟩ ⟨[], "d", ""⟩).results.any
        ConvResult.isOk = true) :=
  ⟨fun _ => rfl,
    (run_bulk_conversion_exit_spec true (fun (_ : Nat) => ⟨false, 0, some 5, true⟩)
      ⟨[(⟨["d"], "a", ".webm"⟩, 3)], [["d"]]⟩ ⟨[], "d", ""⟩ (fun _ => rfl)).2⟩

/-! ### C1: download pipeline fallback on conversion failure -/

/-- C1 counterexample: in video mode with a successful extraction, when the
normalization step fails because the transcoding tool is unavailable
(`convert_to_mp4_in_place` raises `FileNotFoundError`), `perform_download`
returns the ffmpeg-error exit code 3, not the success code 0 the claim
asserts for every kind of conversion failure. -/
theorem perform_download_tool_unavailable_counterexample :
    (perform_download "video" none "http://x" (.ok ⟨[], "v", ".webm"⟩ 3) false
      ⟨false, 0, some 1, true⟩ ⟨[], []⟩).exitCode = 3 ∧ (3 : Nat) ≠ 0 :=
  ⟨by decide, by decide⟩

/-- C1 (amended): in video mode with a successful extraction, when the Media
Converter normalization fails with the tool available (`convert_to_mp4_in_place`
returns `None`), `perform_download` keeps the original downloaded file as the
final artifact, logs the incompatibility warning, and still returns exit code
0; but when the conversion raises `FileNotFoundError` (transcoding tool
unavailable) it instead returns the ffmpeg-error exit code 3. -/
theorem perform_download_video_conversion_failure (quality : Option Int) (url : String)
    (p : MPath) (sz : Nat) (ffRun : FfRun) (fs : FS)
    (hconv : (convert_to_mp4_in_place true ffRun ((mkdirOutput fs).setFile p sz) p).1 = .failed) :
    (perform_download "video" quality url (.ok p sz) true ffRun fs).exitCode = 0 ∧
    (perform_download "video" quality url (.ok p sz) true ffRun fs).final = some p ∧
    (true, "Conversion to mp4 failed; keeping original file (may be Resolve-incompatible).") ∈
      (perform_download "video" quality url (.ok p sz) true ffRun fs).logs := by
  obtain ⟨fstr, hfmt⟩ : ∃ fstr, build_format_string "video" quality = .ok fstr := by
    rcases quality with _ | q
    · exact ⟨_, rfl⟩
    · exact ⟨_, rfl⟩
  simp only [perform_download, hfmt]
  rw [hconv]
  refine ⟨rfl, rfl, ?_⟩
  simp

/-- C1 witness: a concrete failing conversion (ffmpeg exits 1) after a
successful video download keeps the original artifact with exit code 0 and
the warning logged. -/
theorem perform_download_video_conversion_failure_witness :
    (convert_to_mp4_in_place true ⟨false, 1, none, true⟩
        ((mkdirOutput ⟨[], []⟩).setFile ⟨[], "v", ".webm"⟩ 3) ⟨[], "v", ".webm"⟩).1 = .failed ∧
    ((perform_download "video" none "http://x" (.ok ⟨[], "v", ".webm"⟩ 3) true
        ⟨false, 1, none, true⟩ ⟨[], []⟩).exitCode = 0 ∧
      (perform_download "video" none "http://x" (.ok ⟨[], "v", ".webm"⟩ 3) true
        ⟨false, 1, none, true⟩ ⟨[], []⟩).final = some ⟨[], "v", ".webm"⟩ ∧
      (true, "Conversion to mp4 failed; keeping original file (may be Resolve-incompatible).") ∈
        (perform_download "video" none "http://x" (.ok ⟨[], "v", ".webm"⟩ 3) true
          ⟨false, 1, none, true⟩ ⟨[], []⟩).logs) :=
  ⟨by decide, perform_download_video_conversion_failure none "http://x" ⟨[], "v", ".webm"⟩ 3
    ⟨false, 1, none, true⟩ ⟨[], []⟩ (by decide)⟩

/-! ### C5, C6, C7, C9: Format Planner and Option Validator -/

/-- C5: `build_format_string` returns `bestaudio/best` for audio mode
regardless of the quality value, `bestvideo+bestaudio/best` for video mode
with unbounded quality, and `bestvideo[height<=N]+bestaudio/best` for video
mode with bound N (witnessed at 720); for every mode whose lowercasing is
outside {audio, video} it fails with the invalid-mode error. -/
theorem build_format_string_spec (mode : String) (quality : Option Int) (q : Int) :
    (strLower mode = "audio" → build_format_string mode quality = .ok "bestaudio/best") ∧
    (strLower mode = "video" → build_format_string mode none = .ok "bestvideo+bestaudio/best") ∧
    (strLower mode = "video" → build_format_string mode (some q) =
      .ok ("bestvideo[height<=" ++ intDec q ++ "]+bestaudio/best")) ∧
    (strLower mode = "video" → build_format_string mode (some 720) =
      .ok "bestvideo[height<=720]+bestaudio/best") ∧
    (¬(strLower mode = "audio" ∨ strLower mode = "video") →
      ∃ e, build_format_string mode quality = .error e) := by
  refine ⟨?_, ?_, ?_, ?_, ?_⟩
  · intro h
    simp [build_format_string, h]
  · intro h
    simp [build_format_string, h]
  · intro h
    simp [build_format_string, h]
  · intro h
    simp only [build_format_string, h]
    norm_num
    decide
  · intro h
    simp [build_format_string, h]

/-- C5 witness: uppercase `VIDEO` with bound 720 yields the bounded selector. -/
theorem build_format_string_spec_witness :
    strLower "VIDEO" = "video" ∧
    build_format_string "VIDEO" (some 720) = .ok "bestvideo[height<=720]+bestaudio/best" :=
  ⟨by decide, (build_format_string_spec "VIDEO" none 720).2.2.2.1 (by decide)⟩

/-- C6: `_validate_quality` maps the literal token `max` (case-insensitively)
to the unbounded value (`none`); every other token parsing as a base-10
integer strictly greater than zero returns that integer; every token that is
non-numeric or parses to an integer ≤ 0 fails with an invalid-quality error. -/
theorem validate_quality_spec (raw : String) (q : Int) :
    (strLower raw = "max" → _validate_quality raw = .ok none) ∧
    (strLower raw ≠ "max" → pyIntParse raw = some q → 0 < q →
      _validate_quality raw = .ok (some q)) ∧
    (strLower raw ≠ "max" → pyIntParse raw = some q → q ≤ 0 →
      ∃ e, _validate_quality raw = .error e) ∧
    (strLower raw ≠ "max" → pyIntParse raw = none → ∃ e, _validate_quality raw = .error e) := by
  refine ⟨?_, ?_, ?_, ?_⟩
  · intro h
    simp [_validate_quality, h]
  · intro h hp hq
    simp only [_validate_quality]
    rw [if_neg h, hp]
    show (if q ≤ 0 then Except.error "Quality must be a positive integer."
      else Except.ok (some q)) = Except.ok (some q)
    rw [if_neg (by omega : ¬(q ≤ 0))]
  · intro h hp hq
    simp only [_validate_quality]
    rw [if_neg h, hp]
    show ∃ e, (if q ≤ 0 then Except.error "Quality must be a positive integer."
      else Except.ok (some q)) = Except.error e
    rw [if_pos hq]
    exact ⟨_, rfl⟩
  · intro h hp
    simp only [_validate_quality]
    rw [if_neg h, hp]
    exact ⟨_, rfl⟩

/-- C6 witness: the token `7` parses to the positive integer 7. -/
theorem validate_quality_spec_witness :
    (strLower "7" ≠ "max" ∧ pyIntParse "7" = some 7 ∧ (0 : Int) < 7) ∧
    _validate_quality "7" = .ok (some 7) :=
  ⟨⟨by decide, by decide, by decide⟩,
    (validate_quality_spec "7" 7).2.1 (by decide) (by decide) (by decide)⟩

/-- C7: top-level argument parsing rejects the eight malformed argument lists
of the claim (given that `missing-path` does not resolve to an existing path)
and accepts `["video", "max", "https://example.com"]`, yielding mode `video`,
unbounded quality, and that URL as target. -/
theorem parse_args_spec (resolve : String → String) (existsR : String → Bool)
    (h : existsR "missing-path" = false) :
    (∃ e, parse_args resolve existsR ["convert"] = .error e) ∧
    (∃ e, parse_args resolve existsR ["convert", "missing-path"] = .error e) ∧
    (∃ e, parse_args resolve existsR [] = .error e) ∧
    (∃ e, parse_args resolve existsR ["video"] = .error e) ∧
    (∃ e, parse_args resolve existsR ["video", "max"] = .error e) ∧
    (∃ e, parse_args resolve existsR ["invalid", "max", "http://x"] = .error e) ∧
    (∃ e, parse_args resolve existsR ["video", "bad", "http://x"] = .error e) ∧
    (∃ e, parse_args resolve existsR ["video", "720", "not-a-url"] = .error e) ∧
    parse_args resolve existsR ["video", "max", "https://example.com"] =
      .ok ⟨"video", none, some "https://example.com", none⟩ := by
  refine ⟨⟨_, rfl⟩, ⟨"Provided path does not exist.", ?_⟩, ⟨_, rfl⟩, ⟨_, rfl⟩, ⟨_, rfl⟩,
    ⟨_, rfl⟩, ⟨_, rfl⟩, ⟨_, rfl⟩, rfl⟩
  simp [parse_args, show _validate_mode "convert" = Except.ok "convert" from rfl, h]

/-- C7 witness: with a resolver that finds no path, the accepted shape parses
to the expected command. -/
theorem parse_args_spec_witness :
    ((fun (_ : String) => false) "missing-path" = false) ∧
    parse_args (fun s => s) (fun (_ : String) => false) ["video", "max", "https://example.com"] =
      .ok ⟨"video", none, some "https://example.com", none⟩ :=
  ⟨rfl, (parse_args_spec (fun s => s) (fun (_ : String) => false) rfl).2.2.2.2.2.2.2.2⟩

/-- C9: `_validate_url` fails for every string not starting with `http`, and
returns every string that does start with `http` exactly unchanged, with no
normalization or further checks. -/
theorem validate_url_spec (url : String) :
    (strStartsWith url "http" = false →
      _validate_url url = .error "URL must start with http or https.") ∧
    (strStartsWith url "http" = true → _validate_url url = .ok url) := by
  constructor
  · intro h
    simp [_validate_url, h]
  · intro h
    simp [_validate_url, h]

/-- C9 witness: a rejected non-http string and an accepted https URL returned
unchanged. -/
theorem validate_url_spec_witness :
    (strStartsWith "ftp://x" "http" = false ∧
      _validate_url "ftp://x" = .error "URL must start with http or https.") ∧
    (strStartsWith "https://example.com" "http" = true ∧
      _validate_url "https://example.com" = .ok "https://example.com") :=
  ⟨⟨by decide, (validate_url_spec "ftp://x").1 (by decide)⟩,
    ⟨by decide, (validate_url_spec "https://example.com").2 (by decide)⟩⟩
